import Mathlib

/-!
Verification of the AirQuality ingestion pipeline.

This file gives a shallow embedding, in Lean 4, of the parts of the
repository that carry the specified invariants:

* the validator chain of src/data/hopsworks_uploader.py
  (SchemaValidator, TypeValidator, OutlierDetector, MissingValueHandler,
  ConsistencyChecker, IntegrityEnsurer, DataPreprocessor and the factory);
* the pandas feature pipeline of src/features/feature_processor.py
  (FeatureExtractor.extract_features and add_rolling_averages);
* the retry decorator of src/utils/error_handler.py (ErrorHandler.retry);
* the collection loop of src/data/data_collector.py (DataCollector.collect_data);
* the memoised fetchers of src/data/data_fetcher.py (lru_cache maxsize=1);
* the pair-level processors of src/data/data_processor.py
  (BasicDataValidator, AQIDataProcessor, CarbonIntensityDataProcessor,
  CombinedDataProcessor.process_all_data).

Modelling conventions.  Python dictionaries become association lists over
String keys; Python values become the inductive type Val.  A raised Python
exception is modelled as an Except.error value carrying the exception kind;
a function that cannot raise is total and returns plain values.  Python
floats are modelled by Rat plus an explicit NaN constructor; ints by Int.
An ISO-8601 timestamp string is modelled by the constructor Val.vtime
carrying its time value as a whole number of seconds (vstr models strings
that do not parse as timestamps).  Decimal numeric literals inside strings
are modelled by a small concrete parser handling optional sign and one
decimal point, matching CPython float() on those shapes.
-/

namespace AQ

/-- The Python exception kinds raised by the embedded code. -/
inductive PyErr where
  | valueError
  | typeError
  | keyError (key : String)
  | attributeError
deriving DecidableEq, Repr

/-- A Python value as it occurs in the records handled by the pipeline. -/
inductive Val where
  | vnull
  | vstr (s : String)
  | vint (n : Int)
  | vfloat (q : Rat)
  | vnan
  | vtime (t : Int)
  | vdict (entries : List (String × Val))
deriving Repr

/-- A Python dict with string keys (an association list; first binding wins). -/
abbrev Rec := List (String × Val)

/-- Dict lookup: d[k] as an Option. -/
def Rec.get? : Rec → String → Option Val
  | [], _ => none
  | (k, v) :: rest, key => if k = key then some v else Rec.get? rest key

/-- Python d.get(k, dflt). -/
def Rec.getD (d : Rec) (k : String) (dflt : Val) : Val :=
  match d.get? k with
  | some v => v
  | none => dflt

/-- Python d[k] = v : replace the binding in place, or append a new one. -/
def Rec.set : Rec → String → Val → Rec
  | [], k, v => [(k, v)]
  | (k0, v0) :: rest, k, v =>
    if k0 = k then (k, v) :: rest else (k0, v0) :: Rec.set rest k v

/-- Python `k in d`. -/
def Rec.hasKey : Rec → String → Bool
  | [], _ => false
  | (k0, _) :: rest, k => k0 = k || Rec.hasKey rest k

/-- Python truthiness of None. -/
def Val.isNull : Val → Bool
  | .vnull => true
  | _ => false

/-! ## The validator chain of hopsworks_uploader.py -/

/-- The Python types that appear in the expected_types dictionaries. -/
inductive PyTy where
  | pyFloat
  | pyInt
  | pyStr
deriving DecidableEq, Repr

/-- DataPreprocessorFactory.create, expected columns. -/
def expectedColumns : List String :=
  ["city", "aqi", "timestamp", "iaqi", "carbon_intensity"]

/-- DataPreprocessorFactory.create, expected types (only aqi and
carbon_intensity have a declared type). -/
def expectedTypes : List (String × PyTy) :=
  [("aqi", .pyFloat), ("carbon_intensity", .pyInt)]

/-- DataPreprocessorFactory.create, value ranges for OutlierDetector. -/
def valueRanges : List (String × Int × Int) :=
  [("aqi", 0, 500), ("carbon_intensity", 0, 1000)]

/-- DataPreprocessorFactory.create, numeric columns for MissingValueHandler. -/
def numericColumns : List String := ["aqi", "carbon_intensity"]

/-- Does the second character list start with the first?  (Character-level
version of the str.startswith test used by SchemaValidator.) -/
def charsLead : List Char → List Char → Bool
  | [], _ => true
  | _ :: _, [] => false
  | a :: as, b :: bs => a = b && charsLead as bs

/-- col.startswith of the iaqi marker, on the character data of a key. -/
def keyHasIaqiMarker (k : String) : Bool := charsLead "iaqi_".data k.data

/-- SchemaValidator.validate: the expected columns must be present, except
that a missing iaqi key is forgiven when flattened iaqi_* columns exist;
any other missing column raises ValueError. -/
def schemaValidate (expected : List String) (d : Rec) : Except PyErr Rec :=
  let missing := expected.filter (fun c => ¬ d.hasKey c)
  let missing2 :=
    if missing.contains "iaqi" && d.any (fun p => keyHasIaqiMarker p.1)
    then missing.filter (fun c => c ≠ "iaqi") else missing
  if missing2.isEmpty then .ok d else .error .valueError

/-- The value of a nonempty all-digit character list, none otherwise. -/
def digitsValAux : Nat → List Char → Option Nat
  | acc, [] => some acc
  | acc, c :: cs =>
    if c.isDigit then digitsValAux (acc * 10 + (c.toNat - 48)) cs else none

def digitsVal : List Char → Option Nat
  | [] => none
  | cs => digitsValAux 0 cs

/-- CPython int(s) on integer literals with an optional sign. -/
def parseIntChars : List Char → Option Int
  | '-' :: cs => (digitsVal cs).map (fun n => -(n : Int))
  | '+' :: cs => (digitsVal cs).map (fun n => (n : Int))
  | cs => (digitsVal cs).map (fun n => (n : Int))

/-- Split a character list at the first decimal point, when there is one. -/
def splitAtDot : List Char → List Char × Option (List Char)
  | [] => ([], none)
  | c :: cs =>
    if c = '.' then ([], some cs)
    else
      let r := splitAtDot cs
      (c :: r.1, r.2)

/-- CPython float(s) on strings of shape [sign]digits[.digits]; other
shapes raise ValueError (modelled as none).  Literals with an empty whole
or fractional part are conservatively rejected; no claim depends on them. -/
def parseFloatStr (s : String) : Option Rat :=
  let (w, fo) := splitAtDot s.data
  match fo with
  | none => (parseIntChars w).map (fun n => (n : Rat))
  | some f =>
    if f.contains '.' then none
    else
      match parseIntChars w, digitsVal f with
      | some n, some fn =>
        let fr : Rat := (fn : Rat) / ((10 : Rat) ^ f.length)
        some (match w with
          | '-' :: _ => (n : Rat) - fr
          | _ => (n : Rat) + fr)
      | _, _ => none

/-- Truncation toward zero, as Python int() on a float. -/
def ratTrunc (q : Rat) : Int :=
  if q < 0 then Int.ceil q else Int.floor q

/-- Python float(v): ints and floats convert, NaN stays NaN, strings parse
or raise ValueError, everything else raises TypeError. -/
def coerceToFloat : Val → Except PyErr Val
  | .vint n => .ok (.vfloat n)
  | .vfloat q => .ok (.vfloat q)
  | .vnan => .ok .vnan
  | .vstr s =>
    match parseFloatStr s with
    | some q => .ok (.vfloat q)
    | none => .error .valueError
  | _ => .error .typeError

/-- Python int(v): floats truncate toward zero, int(nan) raises ValueError,
strings must be integer literals, everything else raises TypeError. -/
def coerceToInt : Val → Except PyErr Val
  | .vint n => .ok (.vint n)
  | .vfloat q => .ok (.vint (ratTrunc q))
  | .vnan => .error .valueError
  | .vstr s =>
    match parseIntChars s.data with
    | some n => .ok (.vint n)
    | none => .error .valueError
  | _ => .error .typeError

/-- Python isinstance(v, ty) for the types used by TypeValidator. -/
def isInstanceOf : Val → PyTy → Bool
  | .vfloat _, .pyFloat => true
  | .vnan, .pyFloat => true
  | .vint _, .pyInt => true
  | .vstr _, .pyStr => true
  | _, _ => false

/-- The sentinel TypeValidator writes for a None value of each type. -/
def typeSentinel : PyTy → Val
  | .pyFloat => .vnan
  | .pyInt => .vint (-1)
  | .pyStr => .vstr "N/A"

def coerceTo : PyTy → Val → Except PyErr Val
  | .pyFloat, v => coerceToFloat v
  | .pyInt, v => coerceToInt v
  | .pyStr, _ => .error .typeError

/-- TypeValidator.validate: for each declared column present in the record,
a None value becomes the type sentinel, a value of the wrong type is
coerced, and a failed coercion raises (ValueError from the except branch,
TypeError propagating uncaught). -/
def typeValidate : List (String × PyTy) → Rec → Except PyErr Rec
  | [], d => .ok d
  | (c, ty) :: rest, d =>
    match d.get? c with
    | none => typeValidate rest d
    | some v =>
      if v.isNull then typeValidate rest (d.set c (typeSentinel ty))
      else if isInstanceOf v ty then typeValidate rest d
      else
        match coerceTo ty v with
        | .ok v2 => typeValidate rest (d.set c v2)
        | .error e => .error e

def clampInt (n lo hi : Int) : Int := max lo (min n hi)

def clampRat (q : Rat) (lo hi : Int) : Rat := max (lo : Rat) (min q (hi : Rat))

/-- OutlierDetector.validate: a present, non-None numeric value outside its
declared range is clipped into the range (np.clip); NaN compares false on
both sides and is left untouched; comparing a non-number raises TypeError. -/
def outlierDetect : List (String × Int × Int) → Rec → Except PyErr Rec
  | [], d => .ok d
  | (c, lo, hi) :: rest, d =>
    match d.get? c with
    | none => outlierDetect rest d
    | some .vnull => outlierDetect rest d
    | some (.vint n) =>
      if n < lo ∨ hi < n then outlierDetect rest (d.set c (.vint (clampInt n lo hi)))
      else outlierDetect rest d
    | some (.vfloat q) =>
      if q < (lo : Rat) ∨ (hi : Rat) < q then
        outlierDetect rest (d.set c (.vfloat (clampRat q lo hi)))
      else outlierDetect rest d
    | some .vnan => outlierDetect rest d
    | some _ => .error .typeError

/-- MissingValueHandler.validate: each numeric column is subscripted
directly (KeyError when absent) and a None value is replaced by -1. -/
def missingValueHandle : List String → Rec → Except PyErr Rec
  | [], d => .ok d
  | c :: rest, d =>
    match d.get? c with
    | none => .error (.keyError c)
    | some v =>
      if v.isNull then missingValueHandle rest (d.set c (.vint (-1)))
      else missingValueHandle rest d

def secondsPerDay : Int := 86400

/-- ConsistencyChecker.validate: when a timestamp key is present, parse it
(datetime.fromisoformat: non-timestamp strings raise ValueError, non-strings
raise TypeError) and overwrite it with now when it is in the future or more
than one day old. -/
def consistencyCheck (now : Int) (d : Rec) : Except PyErr Rec :=
  match d.get? "timestamp" with
  | none => .ok d
  | some (.vtime t) =>
    if t > now ∨ t < now - secondsPerDay then .ok (d.set "timestamp" (.vtime now))
    else .ok d
  | some (.vstr _) => .error .valueError
  | some _ => .error .typeError

def lookupTy (tys : List (String × PyTy)) (c : String) : Option PyTy :=
  (tys.find? (fun p => p.1 = c)).map (fun p => p.2)

/-- IntegrityEnsurer.validate: each expected column that is absent or None
is filled — timestamp with now, int/float typed columns with -1, other
typed columns with the string sentinel; a column with no entry in
expected_types raises KeyError from the dictionary subscript. -/
def integrityEnsure (tys : List (String × PyTy)) (now : Int) :
    List String → Rec → Except PyErr Rec
  | [], d => .ok d
  | c :: cs, d =>
    let missingOrNull :=
      match d.get? c with
      | none => true
      | some v => v.isNull
    if missingOrNull then
      if c = "timestamp" then integrityEnsure tys now cs (d.set c (.vtime now))
      else
        match lookupTy tys c with
        | none => .error (.keyError c)
        | some ty =>
          if ty = .pyInt ∨ ty = .pyFloat then
            integrityEnsure tys now cs (d.set c (.vint (-1)))
          else integrityEnsure tys now cs (d.set c (.vstr "N/A"))
    else integrityEnsure tys now cs d

/-- DataPreprocessor.preprocess with the validator list built by
DataPreprocessorFactory.create, applied in order. -/
def preprocess (now : Int) (d : Rec) : Except PyErr Rec :=
  (schemaValidate expectedColumns d).bind (fun d1 =>
  (typeValidate expectedTypes d1).bind (fun d2 =>
  (outlierDetect valueRanges d2).bind (fun d3 =>
  (missingValueHandle numericColumns d3).bind (fun d4 =>
  (consistencyCheck now d4).bind (fun d5 =>
  integrityEnsure expectedTypes now expectedColumns d5)))))

/-- A record field that is present and whose value is not None. -/
def presentNonNull (d : Rec) (c : String) : Prop :=
  ∃ v, d.get? c = some v ∧ v.isNull = false

/-! ## The feature pipeline of feature_processor.py

FeatureExtractor.add_rolling_averages sorts the frame by timestamp and,
for each of the seven monitored columns, computes
df[col].rolling(window=w, min_periods=1).mean() for w = 3 and w = 24.
The embedding works over rows whose monitored columns hold plain numbers
(Rat); pandas rolling-mean semantics over NaN-free numeric data is the
trailing mean over the last min(i+1, w) samples. -/

/-- One row of the feature frame: the timestamp and the seven columns the
rolling loop touches. -/
structure Row where
  timestamp : Int
  aqi : Rat
  pm25 : Rat
  pm10 : Rat
  o3 : Rat
  no2 : Rat
  so2 : Rat
  co : Rat

/-- Is the list nondecreasing in timestamp? -/
def sortedByTs : List Row → Bool
  | [] => true
  | [_] => true
  | x :: y :: t => (x.timestamp ≤ y.timestamp) && sortedByTs (y :: t)

/-- Stable insertion of a row coming before the given rows in the original
order: it passes rows with strictly smaller timestamps and stops at the
first row with an equal or larger one. -/
def insertRow (r : Row) : List Row → List Row
  | [] => [r]
  | x :: xs =>
    if r.timestamp ≤ x.timestamp then r :: x :: xs else x :: insertRow r xs

/-- df.sort_values on the timestamp column (stable insertion sort). -/
def sortByTimestamp : List Row → List Row
  | [] => []
  | x :: xs => insertRow x (sortByTimestamp xs)

/-- The rolling mean of window w with min_periods=1 at row i: the mean over
the trailing window of the last min(i+1, w) samples. -/
def rollingMeanAt (w : Nat) (xs : List Rat) (i : Nat) : Rat :=
  let window := (xs.take (i + 1)).drop (i + 1 - w)
  window.sum / (window.length : Rat)

/-- df[col].rolling(window=w, min_periods=1).mean() over a numeric column. -/
def rollingMean (w : Nat) (xs : List Rat) : List Rat :=
  (List.range xs.length).map (rollingMeanAt w xs)

/-- The column loop of add_rolling_averages, in source order. -/
def pollCols : List (String × (Row → Rat)) :=
  [("aqi", Row.aqi), ("pm25", Row.pm25), ("pm10", Row.pm10), ("o3", Row.o3),
   ("no2", Row.no2), ("so2", Row.so2), ("co", Row.co)]

/-- FeatureExtractor.add_rolling_averages: sort by timestamp, then for each
monitored column produce its 3-window and 24-window rolling means. -/
def addRollingAverages (rows : List Row) :
    List Row × List (String × List Rat × List Rat) :=
  let d := sortByTimestamp rows
  (d, pollCols.map (fun pc => (pc.1, rollingMean 3 (d.map pc.2),
                               rollingMean 24 (d.map pc.2))))

/-- Stated from the spec: the min(i+1, 3) most recent values at 0-indexed
position i of a sorted column. -/
def specRecentWindow (xs : List Rat) (i : Nat) : List Rat :=
  ((xs.take (i + 1)).reverse.take (min (i + 1) 3)).reverse

/-- Stated from the spec: the arithmetic mean of the min(i+1, 3) most
recent values. -/
def specMean3 (xs : List Rat) (i : Nat) : Rat :=
  (specRecentWindow xs i).sum / ((min (i + 1) 3 : Nat) : Rat)

/-! ## FeatureExtractor.extract_features (feature_processor.py)

pd.DataFrame(list-of-dicts) builds a column-major frame whose columns are
the union of the record keys in order of first appearance; a record
without a key contributes a missing value to that column.  Subscripting a
column that does not exist raises KeyError. -/

/-- A pandas DataFrame, column-major. -/
structure Df where
  cols : List (String × List Val)

def colGet? : List (String × List Val) → String → Option (List Val)
  | [], _ => none
  | (k, v) :: rest, key => if k = key then some v else colGet? rest key

def colSet : List (String × List Val) → String → List Val → List (String × List Val)
  | [], k, v => [(k, v)]
  | (k0, v0) :: rest, k, v =>
    if k0 = k then (k, v) :: rest else (k0, v0) :: colSet rest k v

/-- df[c] : KeyError when the column does not exist. -/
def Df.getCol (df : Df) (c : String) : Except PyErr (List Val) :=
  match colGet? df.cols c with
  | some l => .ok l
  | none => .error (.keyError c)

/-- df[c] = l. -/
def Df.setCol (df : Df) (c : String) (l : List Val) : Df :=
  ⟨colSet df.cols c l⟩

def addKey (ks : List String) (k : String) : List String :=
  if ks.contains k then ks else ks ++ [k]

/-- Column names of pd.DataFrame(data): union of record keys in order of
first appearance. -/
def unionKeys (rows : List Rec) : List String :=
  rows.foldl (fun ks r => r.foldl (fun ks2 p => addKey ks2 p.1) ks) []

/-- pd.DataFrame(data) for a list of dicts. -/
def mkDf (data : List Rec) : Df :=
  ⟨(unionKeys data).map (fun c => (c, data.map (fun r => r.getD c .vnull)))⟩

def pollutantNames : List String := ["pm25", "pm10", "o3", "no2", "so2", "co"]

/-- pd.to_datetime on one cell: a timestamp parses, anything else raises. -/
def toDatetime : Val → Except PyErr Val
  | .vtime t => .ok (.vtime t)
  | _ => .error .valueError

/-- timestamp.hour, with the timestamp in seconds. -/
def hourOf (t : Int) : Int := Int.fdiv (Int.emod t 86400) 3600

/-- timestamp.dayofweek (Monday = 0; the Unix epoch was a Thursday). -/
def dowOf (t : Int) : Int := Int.emod (Int.fdiv t 86400 + 3) 7

def tfHour : Val → Val
  | .vtime t => .vint (hourOf t)
  | _ => .vnull

def tfDow : Val → Val
  | .vtime t => .vint (dowOf t)
  | _ => .vnull

/-- x.get(p, dict()).get of the v key: a missing pollutant yields None,
and calling .get on a non-dict cell raises AttributeError. -/
def extractPollutant (p : String) : Val → Except PyErr Val
  | .vdict m =>
    match Rec.getD m p (.vdict []) with
    | .vdict inner => .ok (Rec.getD inner "v" .vnull)
    | _ => .error .attributeError
  | _ => .error .attributeError

/-- FeatureExtractor.extract_features: build the frame, convert and read
the timestamp column, derive hour and day_of_week, then extract the six
pollutant columns from the iaqi column. -/
def extractFeatures (data : List Rec) : Except PyErr Df :=
  let df := mkDf data
  (df.getCol "timestamp").bind (fun ts =>
  (ts.mapM toDatetime).bind (fun ts2 =>
  let df1 := df.setCol "timestamp" ts2
  let df2 := df1.setCol "hour" (ts2.map tfHour)
  let df3 := df2.setCol "day_of_week" (ts2.map tfDow)
  (df3.getCol "iaqi").bind (fun iaqi =>
  pollutantNames.foldlM
    (fun dacc p => (iaqi.mapM (extractPollutant p)).map (fun col => dacc.setCol p col))
    df3)))

/-! ## ErrorHandler.retry (error_handler.py)

The decorator runs `for attempt in range(max_attempts)`, returning the
first success; a failure on the last attempt re-raises, an earlier failure
sleeps and continues.  The wrapped operation is modelled as a function of
the attempt index; the result is the returned/raised outcome (none models
the implicit None return when the loop body never runs) together with the
number of invocations of the operation. -/

def retryRun {E A : Type} (op : Nat → Except E A) :
    Nat → Nat → Option (Except E A) × Nat
  | _, 0 => (none, 0)
  | attempt, Nat.succ rest =>
    match op attempt with
    | .ok a => (some (.ok a), 1)
    | .error e =>
      if rest = 0 then (some (.error e), 1)
      else
        let r := retryRun op (attempt + 1) rest
        (r.1, r.2 + 1)

/-- ErrorHandler.retry(max_attempts, delay) applied to op. -/
def retry {E A : Type} (maxAttempts : Nat) (op : Nat → Except E A) :
    Option (Except E A) × Nat :=
  retryRun op 0 maxAttempts

/-! ## DataCollector.collect_data (data_collector.py)

The loop runs a cycle whenever elapsed < total_collection_time and, after
a cycle, sleeps `interval` only when the remaining time exceeds the
interval, otherwise breaks.  Cycle work is modelled as instantaneous, so
elapsed time advances only through the sleeps; the fuel total+1 is enough
for every positive interval. -/

def collectTimesAux (total interval : Nat) : Nat → Nat → List Nat
  | _, 0 => []
  | t, Nat.succ fuel =>
    if t < total then
      if interval < total - t then t :: collectTimesAux total interval (t + interval) fuel
      else [t]
    else []

/-- The elapsed times at which the loop starts a cycle. -/
def collectTimes (total interval : Nat) : List Nat :=
  collectTimesAux total interval 0 (total + 1)

/-- The number of cycles the loop performs. -/
def collectCycles (total interval : Nat) : Nat :=
  (collectTimes total interval).length

/-- The session buffer: one entry appended per cycle whose processing
returned a record (process_all_data result at that cycle). -/
def collectBuffer {α : Type} (total interval : Nat) (process : Nat → Option α) :
    List α :=
  (collectTimes total interval).filterMap process

/-! ## The memoised fetchers of data_fetcher.py

AirQualityFetcher.fetch and CarbonIntensityFetcher.fetch are decorated
with lru_cache(maxsize=1); on one instance the single cache slot holds the
first result (a successful payload or None) and every later call returns
it without touching the network.  The cache is the Option slot; retrievals
counts the underlying network calls, and the retrieve argument gives the
value the network would return on each retrieval. -/

structure FetchState (α : Type) where
  cache : Option α
  retrievals : Nat

/-- One call of the lru_cache-wrapped fetch. -/
def cachedFetch {α : Type} (retrieve : Nat → α) (s : FetchState α) :
    α × FetchState α :=
  match s.cache with
  | some v => (v, s)
  | none =>
    let v := retrieve s.retrievals
    (v, ⟨some v, s.retrievals + 1⟩)

/-- n successive fetch calls on the same instance. -/
def fetchCalls {α : Type} (retrieve : Nat → α) :
    Nat → FetchState α → List α × FetchState α
  | 0, s => ([], s)
  | Nat.succ n, s =>
    let r1 := cachedFetch retrieve s
    let r2 := fetchCalls retrieve n r1.2
    (r1.1 :: r2.1, r2.2)

/-! ## The pair-level processors of data_processor.py -/

/-- The nested_keys walk of BasicDataValidator.validate: .get with a dict
default on each key but the last; .get on a non-dict raises
AttributeError. -/
def walkNested : Val → List String → Except PyErr Val
  | v, [] => .ok v
  | v, k :: ks =>
    match v with
    | .vdict m => walkNested (Rec.getD m k (.vdict [])) ks
    | _ => .error .attributeError

/-- BasicDataValidator.validate: the data must be a dict containing every
required key; when nested_keys is nonempty, the walk over all but the last
key must land on a dict containing the last key.  (An empty nested list
models the falsy nested_keys of the carbon validator.) -/
def basicValidate (req : List String) (nested : List String) (v : Val) :
    Except PyErr Bool :=
  match v with
  | .vdict d =>
    if ¬ (req.all (fun k => Rec.hasKey d k)) then .ok false
    else
      match nested with
      | [] => .ok true
      | _ :: _ =>
        (walkNested (.vdict d) nested.dropLast).bind (fun nd =>
          match nd with
          | .vdict m => .ok (Rec.hasKey m (nested.getLastD ""))
          | _ => .ok false)
  | _ => .ok false

def aqiRequired : List String := ["status", "data"]

def aqiNested : List String := ["data", "aqi"]

def carbonRequired : List String := ["carbonIntensity", "datetime", "updatedAt"]

/-- AQIDataProcessor.process: validate, then build the normalized record
from data["data"], mapping an aqi of "-" to None and stamping the current
time. -/
def aqiProcess (now : Int) (v : Val) : Except PyErr (Option Rec) :=
  (basicValidate aqiRequired aqiNested v).bind (fun ok =>
    if ok then
      match v with
      | .vdict d =>
        match Rec.getD d "data" (.vdict []) with
        | .vdict rm =>
          let aqiRaw := Rec.getD rm "aqi" .vnull
          let aqiVal :=
            match aqiRaw with
            | .vstr s => if s = "-" then Val.vnull else .vstr s
            | w => w
          .ok (some [("city", .vstr "Sakarya"), ("aqi", aqiVal),
                     ("timestamp", .vtime now),
                     ("iaqi", Rec.getD rm "iaqi" (.vdict []))])
        | _ => .error .attributeError
      | _ => .error .attributeError
    else .ok none)

/-- CarbonIntensityDataProcessor.process. -/
def carbonProcess (v : Val) : Except PyErr (Option Rec) :=
  (basicValidate carbonRequired [] v).bind (fun ok =>
    if ok then
      match v with
      | .vdict d =>
        .ok (some [("city", .vstr "Sakarya"),
                   ("carbonIntensity", Rec.getD d "carbonIntensity" .vnull),
                   ("datetime", Rec.getD d "datetime" .vnull),
                   ("updatedAt", Rec.getD d "updatedAt" .vnull)])
      | _ => .error .attributeError
    else .ok none)

/-- Python truthiness of an Optional dict. -/
def recTruthy : Option Rec → Bool
  | some r => ¬ r.isEmpty
  | none => false

/-- CombinedDataProcessor.process_all_data: with uninitialized processors
return None; otherwise process both inputs and, when both results are
truthy, extend the AQI record with the carbon_intensity field (a dict
subscript that raises KeyError were the key absent). -/
def processAllData (initialized : Bool) (now : Int) (a c : Val) :
    Except PyErr (Option Rec) :=
  if initialized then
    (aqiProcess now a).bind (fun pa =>
    (carbonProcess c).bind (fun pc =>
      if recTruthy pa && recTruthy pc then
        match pa, pc with
        | some ra, some rc =>
          match rc.get? "carbonIntensity" with
          | some ci => .ok (some (ra.set "carbon_intensity" ci))
          | none => .error (.keyError "carbonIntensity")
        | _, _ => .ok none
      else .ok none))
  else .ok none

/-- The validation outcome of the AQI validator, as a plain predicate on
the input: a dict with status and data keys whose data value is a dict
containing aqi. -/
def validAqi : Val → Bool
  | .vdict d =>
    (aqiRequired.all (fun k => Rec.hasKey d k)) &&
      (match Rec.getD d "data" (.vdict []) with
       | .vdict m => Rec.hasKey m "aqi"
       | _ => false)
  | _ => false

/-- The validation outcome of the carbon validator, as a plain predicate. -/
def validCarbon : Val → Bool
  | .vdict d => carbonRequired.all (fun k => Rec.hasKey d k)
  | _ => false

/-- The carbonIntensity value the combined record receives. -/
def carbonIntensityOf : Val → Val
  | .vdict d => Rec.getD d "carbonIntensity" .vnull
  | _ => .vnull

/-- The record AQIDataProcessor builds from a valid input. -/
def aqiOutput (now : Int) : Val → Rec
  | .vdict d =>
    match Rec.getD d "data" (.vdict []) with
    | .vdict rm =>
      let aqiRaw := Rec.getD rm "aqi" .vnull
      let aqiVal :=
        match aqiRaw with
        | .vstr s => if s = "-" then Val.vnull else .vstr s
        | w => w
      [("city", .vstr "Sakarya"), ("aqi", aqiVal), ("timestamp", .vtime now),
       ("iaqi", Rec.getD rm "iaqi" (.vdict []))]
    | _ => []
  | _ => []

/-- The record CarbonIntensityDataProcessor builds from a valid input. -/
def carbonOutput : Val → Rec
  | .vdict d =>
    [("city", .vstr "Sakarya"),
     ("carbonIntensity", Rec.getD d "carbonIntensity" .vnull),
     ("datetime", Rec.getD d "datetime" .vnull),
     ("updatedAt", Rec.getD d "updatedAt" .vnull)]
  | _ => []

/-! ## The AQI category bins -/

/-- Modelled from the spec: no source file of the repository assigns an
aqi_category; the spec declares right-inclusive bins with boundaries
(-inf, 50, 100, 150, 200, 300, inf] and labels Good, Moderate, Unhealthy
for Sensitive Groups, Unhealthy, Very Unhealthy, Hazardous. -/
def aqiCategoryBounds : List (Rat × String) :=
  [(50, "Good"), (100, "Moderate"), (150, "Unhealthy for Sensitive Groups"),
   (200, "Unhealthy"), (300, "Very Unhealthy")]

/-- Modelled from the spec: pd.cut-style right-inclusive binning — the
first boundary the value does not exceed names the bin, values above every
boundary fall in the top bin. -/
def cutRight (bounds : List (Rat × String)) (top : String) (x : Rat) : String :=
  match bounds with
  | [] => top
  | (b, lab) :: rest => if x ≤ b then lab else cutRight rest top x

/-- Modelled from the spec: the aqi_category of a reading. -/
def aqiCategory (x : Rat) : String :=
  cutRight aqiCategoryBounds "Hazardous" x

/-! ## Concrete inputs used by counterexamples and witnesses -/

/-- A record that passes the schema stage through the flattened iaqi_*
escape hatch while lacking the iaqi key itself. -/
def c1SchemaPassRec : Rec :=
  [("city", .vstr "X"), ("aqi", .vfloat 1), ("timestamp", .vtime 0),
   ("carbon_intensity", .vint 5), ("iaqi_pm25", .vfloat 3)]

/-- A fully-populated in-range record that the chain passes unchanged. -/
def c1GoodRec : Rec :=
  [("city", .vstr "Sakarya"), ("aqi", .vfloat 42), ("timestamp", .vtime 100),
   ("iaqi", .vdict [("pm25", .vdict [("v", .vfloat 20)])]),
   ("carbon_intensity", .vint 200)]

/-- Five synthetic rows with known values, sorted by timestamp. -/
def rows5 : List Row :=
  [⟨0, 10, 1, 2, 3, 4, 5, 6⟩, ⟨1, 20, 2, 3, 4, 5, 6, 7⟩,
   ⟨2, 30, 3, 4, 5, 6, 7, 8⟩, ⟨3, 40, 4, 5, 6, 7, 8, 9⟩,
   ⟨4, 50, 5, 6, 7, 8, 9, 10⟩]

/-- A raw AQI payload both validators accept. -/
def aGoodInput : Val :=
  .vdict [("status", .vstr "ok"),
          ("data", .vdict [("aqi", .vint 42), ("iaqi", .vdict [])])]

/-- A raw carbon-intensity payload the carbon validator accepts. -/
def cGoodInput : Val :=
  .vdict [("carbonIntensity", .vint 250), ("datetime", .vstr "d"),
          ("updatedAt", .vstr "u")]

/-! ## Record lemmas -/

theorem Rec.get?_set_self (d : Rec) (k : String) (v : Val) :
    (d.set k v).get? k = some v := by
  induction d with
  | nil => simp [Rec.set, Rec.get?]
  | cons p rest ih =>
    by_cases h : p.1 = k
    · simp [Rec.set, h, Rec.get?]
    · simp [Rec.set, h, Rec.get?, ih]

theorem Rec.get?_set_ne (d : Rec) (k k2 : String) (v : Val) (h : k ≠ k2) :
    (d.set k v).get? k2 = d.get? k2 := by
  induction d with
  | nil => simp [Rec.set, Rec.get?, h]
  | cons p rest ih =>
    obtain ⟨k0, v0⟩ := p
    by_cases h0 : k0 = k
    · subst h0
      simp [Rec.set, Rec.get?, h]
    · simp only [Rec.set, if_neg h0, Rec.get?]
      by_cases h1 : k0 = k2 <;> simp [h1, ih]

theorem Rec.get?_eq_none_of_hasKey_false (d : Rec) (k : String)
    (h : d.hasKey k = false) : d.get? k = none := by
  induction d with
  | nil => simp [Rec.get?]
  | cons p rest ih =>
    simp only [Rec.hasKey, Bool.or_eq_false_iff, decide_eq_false_iff_not] at h
    simp [Rec.get?, h.1, ih h.2]

theorem presentNonNull_set (d : Rec) (c : String) (w : Val)
    (hw : w.isNull = false) : presentNonNull (d.set c w) c :=
  ⟨w, Rec.get?_set_self d c w, hw⟩

/-! ## C1: the completeness stage -/

theorem integrityEnsure_preserves (tys : List (String × PyTy)) (now : Int)
    (cs : List String) :
    ∀ d r c, presentNonNull d c → integrityEnsure tys now cs d = .ok r →
      presentNonNull r c := by
  induction cs with
  | nil =>
    intro d r c hp h
    simp only [integrityEnsure] at h
    cases h
    exact hp
  | cons c0 cs ih =>
    intro d r c hp h
    obtain ⟨v, hv, hnull⟩ := hp
    simp only [integrityEnsure] at h
    by_cases hcc : c0 = c
    · subst hcc
      simp only [hv, hnull, Bool.false_eq_true, if_false] at h
      exact ih d r c0 ⟨v, hv, hnull⟩ h
    · split at h
      · split at h
        · exact ih _ r c ⟨v, by rw [Rec.get?_set_ne _ _ _ _ hcc]; exact hv, hnull⟩ h
        · split at h
          · exact Except.noConfusion h
          · split at h
            · exact ih _ r c ⟨v, by rw [Rec.get?_set_ne _ _ _ _ hcc]; exact hv, hnull⟩ h
            · exact ih _ r c ⟨v, by rw [Rec.get?_set_ne _ _ _ _ hcc]; exact hv, hnull⟩ h
      · exact ih d r c ⟨v, hv, hnull⟩ h

theorem integrityEnsure_complete (tys : List (String × PyTy)) (now : Int)
    (cs : List String) :
    ∀ d r, integrityEnsure tys now cs d = .ok r → ∀ c ∈ cs, presentNonNull r c := by
  induction cs with
  | nil =>
    intro d r _ c hc
    exact absurd hc (List.not_mem_nil c)
  | cons c0 cs ih =>
    intro d r h c hc
    simp only [integrityEnsure] at h
    rcases List.mem_cons.mp hc with rfl | hmem
    · split at h
      · split at h
        · exact integrityEnsure_preserves tys now cs _ r c
            (presentNonNull_set d c (.vtime now) rfl) h
        · split at h
          · exact Except.noConfusion h
          · split at h
            · exact integrityEnsure_preserves tys now cs _ r c
                (presentNonNull_set d c (.vint (-1)) rfl) h
            · exact integrityEnsure_preserves tys now cs _ r c
                (presentNonNull_set d c (.vstr "N/A") rfl) h
      · rename_i hcond
        cases hg : d.get? c with
        | none =>
          rw [hg] at hcond
          simp at hcond
        | some v =>
          rw [hg] at hcond
          simp only [Bool.not_eq_true] at hcond
          exact integrityEnsure_preserves tys now cs d r c ⟨v, hg, hcond⟩ h
    · split at h
      · split at h
        · exact ih _ r h c hmem
        · split at h
          · exact Except.noConfusion h
          · split at h
            · exact ih _ r h c hmem
            · exact ih _ r h c hmem
      · exact ih d r h c hmem

/-- C1 (amended): whenever the full normalization chain built by
DataPreprocessorFactory.create returns a record, every declared required
field (city, aqi, timestamp, iaqi, carbon_intensity) is present and
non-null in it. -/
theorem C1_chain_success_fully_populated (now : Int) (d r : Rec)
    (h : preprocess now d = .ok r) :
    ∀ c ∈ expectedColumns, presentNonNull r c := by
  simp only [preprocess, Except.bind] at h
  split at h
  · exact Except.noConfusion h
  · split at h
    · exact Except.noConfusion h
    · split at h
      · exact Except.noConfusion h
      · split at h
        · exact Except.noConfusion h
        · split at h
          · exact Except.noConfusion h
          · exact integrityEnsure_complete expectedTypes now expectedColumns _ r h

/-- C1 (counterexample): a record that passes the schema stage through the
flattened iaqi_* escape hatch makes the final completeness stage raise
KeyError, so IntegrityEnsurer.validate is not infallible on inputs that
passed the schema check. -/
theorem C1_counterexample :
    schemaValidate expectedColumns c1SchemaPassRec = .ok c1SchemaPassRec ∧
    preprocess 0 c1SchemaPassRec = .error (.keyError "iaqi") :=
  ⟨rfl, rfl⟩

/-- C1 (witness): the amended theorem applied to a concrete record the
chain accepts unchanged. -/
theorem C1_witness : presentNonNull c1GoodRec "city" :=
  C1_chain_success_fully_populated 100 c1GoodRec c1GoodRec rfl "city"
    (by simp [expectedColumns])

/-! ## The pair-level processors: characterization lemmas -/

theorem basicValidate_aqi (v : Val) :
    basicValidate aqiRequired aqiNested v = .ok (validAqi v) := by
  cases v with
  | vdict d =>
    by_cases hall : (aqiRequired.all fun k => Rec.hasKey d k) = true
    · simp only [basicValidate, validAqi, hall, not_true, if_false, aqiNested,
        Bool.true_and, List.dropLast, walkNested, Except.bind, List.getLastD]
      cases hdv : Rec.getD d "data" (.vdict []) <;> simp
    · simp only [basicValidate, validAqi, aqiNested]
      rw [if_pos (by simp [hall]), Bool.and_eq_false_iff.mpr (Or.inl (by simp [hall]))]
  | vnull => rfl
  | vstr s => rfl
  | vint n => rfl
  | vfloat q => rfl
  | vnan => rfl
  | vtime t => rfl

theorem basicValidate_carbon (v : Val) :
    basicValidate carbonRequired [] v = .ok (validCarbon v) := by
  cases v with
  | vdict d =>
    by_cases hall : (carbonRequired.all fun k => Rec.hasKey d k) = true
    · simp [basicValidate, validCarbon, hall]
    · simp [basicValidate, validCarbon, hall]
  | vnull => rfl
  | vstr s => rfl
  | vint n => rfl
  | vfloat q => rfl
  | vnan => rfl
  | vtime t => rfl

theorem aqiProcess_eq (now : Int) (v : Val) :
    aqiProcess now v = .ok (if validAqi v then some (aqiOutput now v) else none) := by
  rw [aqiProcess.eq_def, basicValidate_aqi]
  cases v with
  | vdict d =>
    by_cases hv : validAqi (Val.vdict d) = true
    · cases hg : Rec.getD d "data" (.vdict []) with
      | vdict rm => simp [Except.bind, hv, aqiOutput, hg]
      | vnull => simp [validAqi, hg] at hv
      | vstr s => simp [validAqi, hg] at hv
      | vint n => simp [validAqi, hg] at hv
      | vfloat q => simp [validAqi, hg] at hv
      | vnan => simp [validAqi, hg] at hv
      | vtime t => simp [validAqi, hg] at hv
    · have hv2 : validAqi (Val.vdict d) = false := by simpa using hv
      simp [Except.bind, hv2]
  | vnull => simp [validAqi, Except.bind]
  | vstr s => simp [validAqi, Except.bind]
  | vint n => simp [validAqi, Except.bind]
  | vfloat q => simp [validAqi, Except.bind]
  | vnan => simp [validAqi, Except.bind]
  | vtime t => simp [validAqi, Except.bind]

theorem carbonProcess_eq (v : Val) :
    carbonProcess v = .ok (if validCarbon v then some (carbonOutput v) else none) := by
  rw [carbonProcess.eq_def, basicValidate_carbon]
  cases v with
  | vdict d =>
    by_cases hv : validCarbon (Val.vdict d) = true
    · simp [Except.bind, hv, carbonOutput]
    · have hv2 : validCarbon (Val.vdict d) = false := by simpa using hv
      simp [Except.bind, hv2]
  | vnull => simp [validCarbon, Except.bind]
  | vstr s => simp [validCarbon, Except.bind]
  | vint n => simp [validCarbon, Except.bind]
  | vfloat q => simp [validCarbon, Except.bind]
  | vnan => simp [validCarbon, Except.bind]
  | vtime t => simp [validCarbon, Except.bind]

theorem processAllData_eq (b : Bool) (now : Int) (a c : Val) :
    processAllData b now a c =
      .ok (if b && validAqi a && validCarbon c
           then some ((aqiOutput now a).set "carbon_intensity" (carbonIntensityOf c))
           else none) := by
  cases b with
  | false => simp [processAllData]
  | true =>
    rw [processAllData.eq_def]
    simp only [if_true, Bool.true_and]
    rw [aqiProcess_eq, carbonProcess_eq]
    by_cases ha : validAqi a = true
    · by_cases hc : validCarbon c = true
      · cases a with
        | vdict da =>
          cases c with
          | vdict dc =>
            cases hg : Rec.getD da "data" (.vdict []) with
            | vdict rm =>
              simp [ha, hc, Except.bind, recTruthy, aqiOutput, carbonOutput, hg,
                carbonIntensityOf, Rec.get?]
            | vnull => simp [validAqi, hg] at ha
            | vstr s => simp [validAqi, hg] at ha
            | vint n => simp [validAqi, hg] at ha
            | vfloat q => simp [validAqi, hg] at ha
            | vnan => simp [validAqi, hg] at ha
            | vtime t => simp [validAqi, hg] at ha
          | vnull => simp [validCarbon] at hc
          | vstr s => simp [validCarbon] at hc
          | vint n => simp [validCarbon] at hc
          | vfloat q => simp [validCarbon] at hc
          | vnan => simp [validCarbon] at hc
          | vtime t => simp [validCarbon] at hc
        | vnull => simp [validAqi] at ha
        | vstr s => simp [validAqi] at ha
        | vint n => simp [validAqi] at ha
        | vfloat q => simp [validAqi] at ha
        | vnan => simp [validAqi] at ha
        | vtime t => simp [validAqi] at ha
      · have hc2 : validCarbon c = false := by simpa using hc
        simp [ha, hc2, Except.bind, recTruthy]
    · have ha2 : validAqi a = false := by simpa using ha
      simp [ha2, Except.bind, recTruthy]

/-! ## C2: how failures are signalled -/

theorem schemaValidate_missing_city (d : Rec) (h : d.hasKey "city" = false) :
    schemaValidate expectedColumns d = .error .valueError := by
  simp only [schemaValidate]
  have hmem : "city" ∈ expectedColumns.filter (fun c => ¬ d.hasKey c) := by
    simp [expectedColumns, h]
  set missing := expectedColumns.filter (fun c => ¬ d.hasKey c) with hm
  have hmem2 : "city" ∈
      (if missing.contains "iaqi" && d.any (fun p => keyHasIaqiMarker p.1)
       then missing.filter (fun c => c ≠ "iaqi") else missing) := by
    split
    · exact List.mem_filter.mpr ⟨hmem, by decide⟩
    · exact hmem
  rw [if_neg]
  intro hemp
  rw [List.isEmpty_iff] at hemp
  rw [hemp] at hmem2
  exact absurd hmem2 (List.not_mem_nil _)

theorem typeValidate_uncoercible (d : Rec) (v : Val) (e : PyErr)
    (hget : d.get? "aqi" = some v) (hnull : v.isNull = false)
    (hinst : isInstanceOf v .pyFloat = false) (hco : coerceToFloat v = .error e) :
    typeValidate expectedTypes d = .error e := by
  simp only [expectedTypes, typeValidate, hget, hnull, hinst, coerceTo, hco,
    Bool.false_eq_true, if_false]

theorem missingValueHandle_no_aqi (d : Rec) (h : d.hasKey "aqi" = false) :
    missingValueHandle numericColumns d = .error (.keyError "aqi") := by
  have hg : d.get? "aqi" = none := Rec.get?_eq_none_of_hasKey_false d "aqi" h
  simp [missingValueHandle, numericColumns, hg]

/-- C2 (counterexample): normalization of malformed input raises instead of
returning a failure value — the chain raises ValueError on an empty record
(missing keys) and TypeValidator raises ValueError on an uncoercible aqi. -/
theorem C2_counterexample :
    preprocess 0 ([] : Rec) = .error .valueError ∧
    typeValidate expectedTypes [("aqi", .vstr "abc")] = .error .valueError :=
  ⟨rfl, rfl⟩

/-- C2 (amended): only the pair-level process_all_data signals failure as a
value (it always returns, never raising); the preprocessing validators
signal malformed input by raising — a missing required column raises
ValueError in SchemaValidator, an uncoercible value raises in
TypeValidator, and a missing numeric column raises KeyError in
MissingValueHandler. -/
theorem C2_failures_raise_in_validators :
    (∀ d : Rec, d.hasKey "city" = false →
      schemaValidate expectedColumns d = .error .valueError) ∧
    (∀ (d : Rec) (v : Val) (e : PyErr), d.get? "aqi" = some v →
      v.isNull = false → isInstanceOf v .pyFloat = false →
      coerceToFloat v = .error e → typeValidate expectedTypes d = .error e) ∧
    (∀ d : Rec, d.hasKey "aqi" = false →
      missingValueHandle numericColumns d = .error (.keyError "aqi")) ∧
    (∀ (b : Bool) (now : Int) (a c : Val), ∃ o, processAllData b now a c = .ok o) :=
  ⟨schemaValidate_missing_city, typeValidate_uncoercible, missingValueHandle_no_aqi,
   fun b now a c => ⟨_, processAllData_eq b now a c⟩⟩

/-- C2 (witness): the amended theorem applied at concrete records. -/
theorem C2_witness :
    schemaValidate expectedColumns [("aqi", Val.vint 1)] = .error .valueError ∧
    missingValueHandle numericColumns [("x", Val.vint 1)] = .error (.keyError "aqi") ∧
    typeValidate expectedTypes [("aqi", .vdict [])] = .error .typeError :=
  ⟨C2_failures_raise_in_validators.1 [("aqi", Val.vint 1)] rfl,
   C2_failures_raise_in_validators.2.2.1 [("x", Val.vint 1)] rfl,
   C2_failures_raise_in_validators.2.1 [("aqi", .vdict [])] (.vdict []) .typeError
     rfl rfl rfl rfl⟩

/-- C10: CombinedDataProcessor.process_all_data returns None as a value —
never raising — when the singleton processors are uninitialized or when
either input fails its validator, and returns the processed AQI record
extended with the carbon_intensity field exactly when both inputs
validate. -/
theorem C10_process_all_data :
    (∀ (now : Int) (a c : Val), processAllData false now a c = .ok none) ∧
    (∀ (now : Int) (a c : Val), validAqi a = false ∨ validCarbon c = false →
      processAllData true now a c = .ok none) ∧
    (∀ (now : Int) (a c : Val), validAqi a = true → validCarbon c = true →
      processAllData true now a c =
        .ok (some ((aqiOutput now a).set "carbon_intensity" (carbonIntensityOf c)))) := by
  refine ⟨fun now a c => by simp [processAllData], fun now a c h => ?_, fun now a c ha hc => ?_⟩
  · rw [processAllData_eq]
    rcases h with h | h <;> simp [h]
  · rw [processAllData_eq]
    simp [ha, hc]

/-- C10 (witness): the theorem applied at concrete payloads — a valid pair
combines, and an invalid AQI payload yields None. -/
theorem C10_witness :
    processAllData true 5 aGoodInput cGoodInput =
      .ok (some ((aqiOutput 5 aGoodInput).set "carbon_intensity"
        (carbonIntensityOf cGoodInput))) ∧
    processAllData true 5 (Val.vint 3) cGoodInput = .ok none :=
  ⟨C10_process_all_data.2.2 5 aGoodInput cGoodInput rfl rfl,
   C10_process_all_data.2.1 5 (Val.vint 3) cGoodInput (Or.inl rfl)⟩

/-- C7: when ConsistencyChecker.validate runs at wall-clock time now on a
record whose timestamp parses to t, the stage succeeds and the stored
timestamp lies in the window from now minus one day to now; an
out-of-window timestamp is overwritten with now and an in-window one — and
the whole record — is left unchanged. -/
theorem C7_timestamp_sanity (now t : Int) (d : Rec)
    (hget : d.get? "timestamp" = some (.vtime t)) :
    ∃ r t2, consistencyCheck now d = .ok r ∧
      r.get? "timestamp" = some (.vtime t2) ∧
      now - secondsPerDay ≤ t2 ∧ t2 ≤ now ∧
      ((t > now ∨ t < now - secondsPerDay) → t2 = now) ∧
      (now - secondsPerDay ≤ t → t ≤ now → t2 = t ∧ r = d) := by
  simp only [consistencyCheck, hget]
  by_cases hcond : t > now ∨ t < now - secondsPerDay
  · refine ⟨d.set "timestamp" (.vtime now), now, by rw [if_pos hcond],
      Rec.get?_set_self d "timestamp" (.vtime now), ?_, le_refl now, fun _ => rfl, ?_⟩
    · have : (0 : Int) ≤ secondsPerDay := by norm_num [secondsPerDay]
      omega
    · intro h1 h2
      exact absurd hcond (by omega)
  · have hle : now - secondsPerDay ≤ t ∧ t ≤ now := by
      push_neg at hcond
      omega
    exact ⟨d, t, by rw [if_neg hcond], hget, hle.1, hle.2,
      fun hc => absurd hc hcond, fun _ _ => ⟨rfl, rfl⟩⟩

/-- C7 (witness): the theorem applied to a record carrying an in-window
timestamp. -/
theorem C7_witness :
    ∃ r t2, consistencyCheck 60 [("timestamp", .vtime 50)] = .ok r ∧
      r.get? "timestamp" = some (.vtime t2) ∧
      60 - secondsPerDay ≤ t2 ∧ t2 ≤ 60 ∧
      (((50 : Int) > 60 ∨ (50 : Int) < 60 - secondsPerDay) → t2 = 60) ∧
      (60 - secondsPerDay ≤ 50 → (50 : Int) ≤ 60 →
        t2 = 50 ∧ r = [("timestamp", .vtime 50)]) :=
  C7_timestamp_sanity 60 50 [("timestamp", .vtime 50)] rfl

/-! ## C4: the retry decorator -/

theorem retryRun_all_fail {E A : Type} (op : Nat → Except E A) (err : Nat → E)
    (hop : ∀ n, op n = .error (err n)) :
    ∀ r attempt, 1 ≤ r →
      retryRun op attempt r = (some (.error (err (attempt + r - 1))), r) := by
  intro r
  induction r with
  | zero =>
    intro attempt h
    omega
  | succ rs ih =>
    intro attempt _
    simp only [retryRun, hop attempt]
    cases rs with
    | zero => simp
    | succ rs2 =>
      have hne : ¬ (rs2 + 1 = 0) := by omega
      rw [if_neg hne, ih (attempt + 1) (by omega)]
      have harg : attempt + 1 + (rs2 + 1) - 1 = attempt + (rs2 + 1 + 1) - 1 := by
        omega
      rw [harg]

theorem retryRun_succeeds {E A : Type} (op : Nat → Except E A) (a : A) :
    ∀ (k r attempt : Nat), 1 ≤ k → k ≤ r →
      (∀ j, j + 1 < k → ∃ e, op (attempt + j) = .error e) →
      op (attempt + (k - 1)) = .ok a →
      retryRun op attempt r = (some (.ok a), k) := by
  intro k
  induction k with
  | zero =>
    intro r attempt h
    omega
  | succ k2 ih =>
    intro r attempt _ hkr hfail hsucc
    cases r with
    | zero => omega
    | succ rs =>
      simp only [retryRun]
      cases k2 with
      | zero =>
        rw [show attempt + (1 - 1) = attempt by omega] at hsucc
        rw [hsucc]
      | succ k3 =>
        obtain ⟨e, he⟩ := hfail 0 (by omega)
        rw [show attempt + 0 = attempt from rfl] at he
        simp only [he]
        rw [if_neg (by omega : ¬ rs = 0)]
        have hrec := ih rs (attempt + 1) (by omega) (by omega)
          (fun j hj => by
            obtain ⟨e2, he2⟩ := hfail (j + 1) (by omega)
            exact ⟨e2, by rw [show attempt + 1 + j = attempt + (j + 1) by omega]; exact he2⟩)
          (by rw [show attempt + 1 + (k3 + 1 - 1) = attempt + (k3 + 1 + 1 - 1) by omega]
              exact hsucc)
        simp [hrec]

/-- C4: a wrapped operation failing on every invocation is invoked exactly
max_attempts times and the retry wrapper propagates the error of the last
attempt; an operation succeeding on attempt k with k at most max_attempts
is invoked exactly k times and its success is returned immediately.
(The statement requires at least one attempt; with max_attempts equal to
zero the loop body never runs and the wrapper returns None.) -/
theorem C4_retry_semantics :
    (∀ (E A : Type) (maxA : Nat) (op : Nat → Except E A) (err : Nat → E),
      1 ≤ maxA → (∀ n, op n = .error (err n)) →
      retry maxA op = (some (.error (err (maxA - 1))), maxA)) ∧
    (∀ (E A : Type) (k maxA : Nat) (op : Nat → Except E A) (a : A),
      1 ≤ k → k ≤ maxA → (∀ j, j + 1 < k → ∃ e, op j = .error e) →
      op (k - 1) = .ok a → retry maxA op = (some (.ok a), k)) := by
  constructor
  · intro E A maxA op err h1 hop
    have := retryRun_all_fail op err hop maxA 0 h1
    simpa [retry] using this
  · intro E A k maxA op a hk1 hkm hfail hsucc
    have := retryRun_succeeds op a k maxA 0 hk1 hkm
      (fun j hj => by simpa using hfail j hj) (by simpa using hsucc)
    simpa [retry] using this

/-- C4 (witness): with max_attempts three, an always-failing operation is
invoked three times and the last error propagates; an operation failing
twice then succeeding is invoked exactly three times and succeeds. -/
theorem C4_witness :
    retry 3 (fun n => (Except.error n : Except Nat Unit)) = (some (.error 2), 3) ∧
    retry 3 (fun n => if n < 2 then (Except.error n : Except Nat Unit) else .ok ()) =
      (some (.ok ()), 3) :=
  ⟨C4_retry_semantics.1 Nat Unit 3 _ (fun n => n) (by omega) (fun n => rfl),
   C4_retry_semantics.2 Nat Unit 3 3 _ () (by omega) (by omega)
     (fun j hj => ⟨j, by simp [show j < 2 by omega]⟩) (by simp)⟩

/-! ## C5: the collection loop -/

theorem collectTimes_single (total interval : Nat) (h0 : 0 < total)
    (h1 : total < interval) : collectTimes total interval = [0] := by
  rw [collectTimes, collectTimesAux]
  rw [if_pos h0, if_neg (show ¬ interval < total - 0 by omega)]

theorem collectBuffer_all_skipped {α : Type} (total interval : Nat)
    (process : Nat → Option α) (hp : ∀ t, process t = none) :
    collectBuffer total interval process = [] := by
  rw [collectBuffer, List.filterMap_eq_nil_iff]
  intro t _
  exact hp t

/-- C5 (amended; a positive collection time is required for the one-cycle
edge case): with total_collection_time 100 and interval 30 the loop starts
cycles exactly at elapsed times 0, 30, 60 and 90; for every positive
total_collection_time below the interval exactly one cycle runs; and when
every cycle fails to produce a record the returned buffer is empty rather
than an error. -/
theorem C5_scheduler :
    collectTimes 100 30 = [0, 30, 60, 90] ∧
    (∀ total interval : Nat, 0 < total → total < interval →
      collectCycles total interval = 1) ∧
    (∀ (total interval : Nat) (process : Nat → Option Nat), 0 < interval →
      (∀ t, process t = none) → collectBuffer total interval process = []) := by
  refine ⟨rfl, fun total interval h0 h1 => ?_, fun total interval process _ hp =>
    collectBuffer_all_skipped total interval process hp⟩
  rw [collectCycles, collectTimes_single total interval h0 h1]
  rfl

/-- C5 (counterexample): a total collection time of zero is below the
interval yet the loop performs zero cycles, not one. -/
theorem C5_counterexample : (0 : Nat) < 30 ∧ collectCycles 0 30 = 0 :=
  ⟨by omega, rfl⟩

/-- C5 (witness): the amended theorem applied at concrete parameters. -/
theorem C5_witness :
    collectCycles 10 30 = 1 ∧
    collectBuffer 100 30 (fun _ => (none : Option Nat)) = [] :=
  ⟨C5_scheduler.2.1 10 30 (by omega) (by omega),
   C5_scheduler.2.2 100 30 (fun _ => none) (by omega) (fun _ => rfl)⟩

/-! ## C9: the memoised fetchers -/

theorem fetchCalls_cached {α : Type} (retrieve : Nat → α) (v : α) :
    ∀ (n : Nat) (s : FetchState α), s.cache = some v →
      (fetchCalls retrieve n s).1 = List.replicate n v ∧
      (fetchCalls retrieve n s).2 = s := by
  intro n
  induction n with
  | zero =>
    intro s _
    exact ⟨rfl, rfl⟩
  | succ m ih =>
    intro s hc
    have hone : cachedFetch retrieve s = (v, s) := by
      simp [cachedFetch, hc]
    simp only [fetchCalls, hone]
    obtain ⟨h1, h2⟩ := ih s hc
    simp [h1, h2, List.replicate_succ]

/-- C9: on one fetcher instance every fetch call after the first returns
the memoised result of the first underlying retrieval — after any positive
number of fetch calls starting from a fresh instance, exactly one
retrieval has happened and every returned value equals the first
retrieval's result. -/
theorem C9_fetch_memoized (α : Type) (retrieve : Nat → α) (n : Nat)
    (hn : 1 ≤ n) :
    (fetchCalls retrieve n ⟨none, 0⟩).2.retrievals = 1 ∧
    ∀ v ∈ (fetchCalls retrieve n ⟨none, 0⟩).1, v = retrieve 0 := by
  cases n with
  | zero => omega
  | succ m =>
    have hone : cachedFetch retrieve ⟨none, 0⟩ =
        (retrieve 0, ⟨some (retrieve 0), 1⟩) := rfl
    have hrest := fetchCalls_cached retrieve (retrieve 0) m
      ⟨some (retrieve 0), 1⟩ rfl
    simp only [fetchCalls, hone]
    refine ⟨by simp [hrest.2], ?_⟩
    intro v hv
    simp only [hrest.1] at hv
    rcases List.mem_cons.mp hv with h | h
    · exact h
    · exact List.eq_of_mem_replicate h

/-- C9 (witness): two calls on a fresh instance perform one retrieval and
both return the first result. -/
theorem C9_witness :
    (fetchCalls (fun i => i + 7) 2 ⟨none, 0⟩).2.retrievals = 1 ∧
    (fetchCalls (fun i => i + 7) 2 ⟨none, 0⟩).1 = [7, 7] :=
  ⟨(C9_fetch_memoized Nat (fun i => i + 7) 2 (by omega)).1, rfl⟩

/-- C8: feature extraction assigns aqi_category from right-inclusive bins
with boundaries 50, 100, 150, 200, 300 and labels Good, Moderate,
Unhealthy for Sensitive Groups, Unhealthy, Very Unhealthy, Hazardous; in
particular aqi 50 is Good, 51 is Moderate and 500 is Hazardous. -/
theorem C8_aqi_category_bins :
    aqiCategory 50 = "Good" ∧ aqiCategory 51 = "Moderate" ∧
    aqiCategory 500 = "Hazardous" ∧
    (∀ x : Rat, x ≤ 50 → aqiCategory x = "Good") ∧
    (∀ x : Rat, 50 < x → x ≤ 100 → aqiCategory x = "Moderate") ∧
    (∀ x : Rat, 100 < x → x ≤ 150 →
      aqiCategory x = "Unhealthy for Sensitive Groups") ∧
    (∀ x : Rat, 150 < x → x ≤ 200 → aqiCategory x = "Unhealthy") ∧
    (∀ x : Rat, 200 < x → x ≤ 300 → aqiCategory x = "Very Unhealthy") ∧
    (∀ x : Rat, 300 < x → aqiCategory x = "Hazardous") := by
  refine ⟨by norm_num [aqiCategory, aqiCategoryBounds, cutRight],
    by norm_num [aqiCategory, aqiCategoryBounds, cutRight],
    by norm_num [aqiCategory, aqiCategoryBounds, cutRight],
    fun x h1 => by simp [aqiCategory, aqiCategoryBounds, cutRight, h1],
    fun x h1 h2 => ?_, fun x h1 h2 => ?_, fun x h1 h2 => ?_,
    fun x h1 h2 => ?_, fun x h1 => ?_⟩
  · have n50 : ¬ x ≤ 50 := by linarith
    simp [aqiCategory, aqiCategoryBounds, cutRight, n50, h2]
  · have n50 : ¬ x ≤ 50 := by linarith
    have n100 : ¬ x ≤ 100 := by linarith
    simp [aqiCategory, aqiCategoryBounds, cutRight, n50, n100, h2]
  · have n50 : ¬ x ≤ 50 := by linarith
    have n100 : ¬ x ≤ 100 := by linarith
    have n150 : ¬ x ≤ 150 := by linarith
    simp [aqiCategory, aqiCategoryBounds, cutRight, n50, n100, n150, h2]
  · have n50 : ¬ x ≤ 50 := by linarith
    have n100 : ¬ x ≤ 100 := by linarith
    have n150 : ¬ x ≤ 150 := by linarith
    have n200 : ¬ x ≤ 200 := by linarith
    simp [aqiCategory, aqiCategoryBounds, cutRight, n50, n100, n150, n200, h2]
  · have n50 : ¬ x ≤ 50 := by linarith
    have n100 : ¬ x ≤ 100 := by linarith
    have n150 : ¬ x ≤ 150 := by linarith
    have n200 : ¬ x ≤ 200 := by linarith
    have n300 : ¬ x ≤ 300 := by linarith
    simp [aqiCategory, aqiCategoryBounds, cutRight, n50, n100, n150, n200, n300]

/-- C8 (witness): the bin characterizations applied at boundary values. -/
theorem C8_witness :
    aqiCategory 150 = "Unhealthy for Sensitive Groups" ∧
    aqiCategory 301 = "Hazardous" :=
  ⟨C8_aqi_category_bins.2.2.2.2.2.1 150 (by norm_num) (by norm_num),
   C8_aqi_category_bins.2.2.2.2.2.2.2.2 301 (by norm_num)⟩

/-! ## C3: the rolling averages -/

theorem sortByTimestamp_of_sorted (l : List Row) (h : sortedByTs l = true) :
    sortByTimestamp l = l := by
  induction l with
  | nil => rfl
  | cons x xs ih =>
    cases xs with
    | nil => rfl
    | cons y ys =>
      have h1 : (x.timestamp ≤ y.timestamp) ∧ sortedByTs (y :: ys) = true := by
        simpa [sortedByTs, Bool.and_eq_true, decide_eq_true_eq] using h
      rw [sortByTimestamp, ih h1.2]
      simp [insertRow, h1.1]

theorem rollingMean_getElem (w : Nat) (xs : List Rat) (i : Nat)
    (hi : i < xs.length) :
    (rollingMean w xs)[i]? = some (rollingMeanAt w xs i) := by
  simp [rollingMean, List.getElem?_map, List.getElem?_range, hi]

theorem rollingMeanAt_three_spec (xs : List Rat) (i : Nat) (hi : i < xs.length) :
    rollingMeanAt 3 xs i = specMean3 xs i ∧
    (specRecentWindow xs i).length = min (i + 1) 3 := by
  have hlen : (xs.take (i + 1)).length = i + 1 := by
    rw [List.length_take]
    omega
  have hwin : specRecentWindow xs i = (xs.take (i + 1)).drop (i + 1 - 3) := by
    rw [specRecentWindow, List.take_reverse, List.reverse_reverse, hlen]
    congr 1
    omega
  have hlen2 : ((xs.take (i + 1)).drop (i + 1 - 3)).length = min (i + 1) 3 := by
    rw [List.length_drop, hlen]
    omega
  constructor
  · rw [rollingMeanAt, specMean3, hwin, hlen2]
  · rw [hwin]
    exact hlen2

/-- C3: for every timestamp-sorted row sequence, every monitored column
and every position i below the length, add_rolling_averages produces a
3-window column whose entry at i is the arithmetic mean of the
min(i+1, 3) most recent values of that column. -/
theorem C3_rolling_window_mean (rows : List Row) (hs : sortedByTs rows = true)
    (nm : String) (f : Row → Rat) (hmem : (nm, f) ∈ pollCols) (i : Nat)
    (hi : i < rows.length) :
    ∃ a3 a24, (nm, a3, a24) ∈ (addRollingAverages rows).2 ∧
      a3[i]? = some (specMean3 (rows.map f) i) ∧
      (specRecentWindow (rows.map f) i).length = min (i + 1) 3 := by
  have hmap : i < (rows.map f).length := by
    rw [List.length_map]
    exact hi
  refine ⟨rollingMean 3 (rows.map f), rollingMean 24 (rows.map f), ?_, ?_,
    (rollingMeanAt_three_spec (rows.map f) i hmap).2⟩
  · simp only [addRollingAverages, sortByTimestamp_of_sorted rows hs]
    exact List.mem_map_of_mem _ hmem
  · rw [rollingMean_getElem 3 (rows.map f) i hmap]
    exact congrArg some (rollingMeanAt_three_spec (rows.map f) i hmap).1

/-- C3 (witness): the theorem applied to the synthetic five-record
sequence at its last position. -/
theorem C3_witness :
    ∃ a3 a24, ("aqi", a3, a24) ∈ (addRollingAverages rows5).2 ∧
      a3[4]? = some (specMean3 (rows5.map Row.aqi) 4) ∧
      (specRecentWindow (rows5.map Row.aqi) 4).length = min (4 + 1) 3 :=
  C3_rolling_window_mean rows5 rfl "aqi" Row.aqi
    (by simp [pollCols]) 4 (by simp [rows5])

/-- C6: FeatureExtractor.extract_features applied to the empty input list
raises KeyError on the timestamp column (pd.DataFrame of an empty list has
no columns), contradicting the repository's own test, which expects an
empty DataFrame back. -/
theorem C6_extract_empty_raises :
    extractFeatures ([] : List Rec) = .error (.keyError "timestamp") := rfl

end AQ
